import Mathlib

/-!
Verification development for the zzuf launcher (`src/myfork.c`).

The C source is shallowly embedded: C strings become `List Char`, the
process environment becomes an association list, the file-descriptor
table becomes a function from descriptor numbers to abstract file
objects, and the fallible Win32 system calls of the injection path are
driven by an explicit oracle of call outcomes.  Each definition mirrors
one function (or one clearly delimited part of one function) of
`myfork.c`; build-time constants that live outside the translated file
are modelled from the spec and documented as such.
-/

set_option autoImplicit false

namespace Zzuf

/-- C strings are modelled as lists of characters (no terminating NUL). -/
abbrev Str := List Char

/-- Shorthand to write a modelled C string from a Lean string literal. -/
def str (s : String) : Str := s.data

/-- The process environment: an association list from variable names to
values.  Lookup returns the first binding, so a fresh binding in front
shadows older ones, matching `setenv(name, value, 1)`. -/
abbrev Env := List (Str × Str)

/-- `getenv`: first binding for the name, if any. -/
def getenvS (env : Env) (k : Str) : Option Str :=
  match env with
  | [] => none
  | (k2, v) :: rest => if k2 = k then some v else getenvS rest k

/-- `setenv(name, value, 1)`: bind the name, shadowing any old binding. -/
def setenvS (env : Env) (k v : Str) : Env := (k, v) :: env

/-- Digit loop of the decimal printer, with explicit fuel so that it is
structurally recursive (the fuel `n + 1` always suffices). -/
def natTextCore : Nat → Nat → Str → Str
  | 0, _, acc => acc
  | fuel + 1, n, acc =>
    if n < 10 then Nat.digitChar n :: acc
    else natTextCore fuel (n / 10) (Nat.digitChar (n % 10) :: acc)

/-- Decimal digits of a natural number, as written by `sprintf("%i", n)`. -/
def natText (n : Nat) : Str := natTextCore (n + 1) n []

/-- Decimal text of a C `int`, as written by `sprintf("%i", n)`. -/
def intText (n : Int) : Str :=
  if n < 0 then '-' :: natText n.natAbs else natText n.toNat

/-- Value of a decimal digit string (fold of `a * 10 + digit`). -/
def natVal (s : Str) : Nat :=
  s.foldl (fun a c => a * 10 + (c.toNat - 48)) 0

/-- Value of the decimal text of a C `int` (sign handling). -/
def intVal (s : Str) : Int :=
  if s.head? = some '-' then -(natVal (s.drop 1) : Int)
  else (natVal s : Int)

/-! ## Launch configuration (`struct opts`, fields used by `myfork.c`)

The operating-mode enumeration lives in `opts.h`, outside the translated
file.  Modelled from the spec: mode is `Preload` or one of the other,
out-of-scope modes; one representative other mode suffices. -/

/-- Operating mode (`opts->opmode`). -/
inductive OpMode
  | preload
  | copy
deriving DecidableEq

/-- A finite IEEE binary64 value, carried exactly as `m * 2 ^ (-d)`
(every finite double has this form; the sign lives in `m`). -/
structure D64 where
  m : Int
  d : Nat
deriving DecidableEq

/-- The fields of `struct opts` that `run_process` reads.  The two fuzz
ratios are C doubles, carried exactly as dyadic rationals (`D64`). -/
structure Opts where
  opmode : OpMode
  seed : Int
  minratio : D64
  maxratio : D64
  maxmem : Int
  maxcpu : Int
  oldargv0 : Str

/-! ## The C library's `%g` conversion

`run_process` writes the two ratios with `sprintf(buf, "%g", ...)`
(lines 292-294).  The following functions embed the C99 `%g` conversion
at its default precision 6 (C99 7.19.6.1): round the value to 6
significant decimal digits (the tie goes to even, the default rounding
direction), use fixed notation when the decimal exponent X of the
rounded value satisfies -4 ≤ X < 6 and scientific notation otherwise,
and remove trailing zeros (and a trailing decimal point).  All
arithmetic is exact integer arithmetic on the dyadic value `m / 2^d`. -/

/-- Round-half-even integer division: `rheDivN r s` is the integer
nearest `r / s`, ties to even. -/
def rheDivN (r s : Nat) : Nat :=
  if 2 * (r % s) < s then r / s
  else if s < 2 * (r % s) then r / s + 1
  else if r / s % 2 = 0 then r / s else r / s + 1

/-- Number of decimal digits of `n`. -/
def dCount (n : Nat) : Nat := (natText n).length

/-- Does `m / 2^d ≥ 10^e` hold? (exact integer comparison). -/
def decGe (m d : Nat) (e : Int) : Bool :=
  if 0 ≤ e then decide (10 ^ e.toNat * 2 ^ d ≤ m)
  else decide (2 ^ d ≤ m * 10 ^ (-e).toNat)

/-- The first 6 significant decimal digits of `m / 2^d`, as the integer
nearest `(m / 2^d) * 10 ^ (5 - x)` (ties to even), where `x` is the
decimal exponent of the value. -/
def sixDigits (m d : Nat) (x : Int) : Nat :=
  if 0 ≤ 5 - x then rheDivN (m * 10 ^ (5 - x).toNat) (2 ^ d)
  else rheDivN m (2 ^ d * 10 ^ (x - 5).toNat)

/-- Strip trailing `'0'` characters. -/
def stripZ (s : Str) : Str :=
  (s.reverse.dropWhile (fun c => c == '0')).reverse

/-- Exponent field padding: `%g` prints at least two exponent digits. -/
def pad2 (s : Str) : Str := if s.length < 2 then '0' :: s else s

/-- `%g` text of the positive value `m / 2^d` (`m > 0`). -/
def fmtGPos (m d : Nat) : Str :=
  -- decimal exponent x0 of m / 2^d, from the digit counts of m and 2^d
  let e0 : Int := (dCount m : Int) - (dCount (2 ^ d) : Int)
  let x0 : Int := if decGe m d e0 then e0 else e0 - 1
  -- 6 significant digits; rounding may carry into the next decade
  let n0 := sixDigits m d x0
  let n := if n0 = 1000000 then 100000 else n0
  let x : Int := if n0 = 1000000 then x0 + 1 else x0
  let digits := natText n
  if -4 ≤ x ∧ x < 6 then
    if 0 ≤ x then
      let fp := stripZ (digits.drop (x.toNat + 1))
      digits.take (x.toNat + 1) ++ (if fp = [] then [] else '.' :: fp)
    else
      '0' :: '.' :: (List.replicate (x.natAbs - 1) '0' ++ stripZ digits)
  else
    let fp := stripZ digits.tail
    (digits.take 1 ++ (if fp = [] then [] else '.' :: fp)) ++
      'e' :: (if x < 0 then '-' else '+') :: pad2 (natText x.natAbs)

/-- `sprintf("%g", ·)` for a finite double (lines 292-294). -/
def fmtG (q : D64) : Str :=
  if q.m = 0 then ['0']
  else if q.m < 0 then '-' :: fmtGPos q.m.natAbs q.d
  else fmtGPos q.m.natAbs q.d

/-- Modelled from the spec: the value denoted by a fixed-notation
decimal numeral, as the pair (digit string value `a`, number of
fraction digits `k`), denoting `a / 10^k`.  This is the reading half of
the spec's "round-trip" requirement. -/
def parseDec (s : Str) : Nat × Nat :=
  ((s.takeWhile (fun c => c != '.') ++
      (s.dropWhile (fun c => c != '.')).drop 1).foldl
      (fun a c => a * 10 + (c.toNat - 48)) 0,
   ((s.dropWhile (fun c => c != '.')).drop 1).length)

/-- Modelled from the spec: IEEE-754 parsing of a decimal value
`a / 10^k` into the binade whose binary64 values are spaced `2^-scale`:
round to the nearest representable `j * 2^-scale`, ties to even.  A
decimal text round-trips for a double `m * 2^-scale` in that binade
exactly when this returns `m`. -/
def nearestScaled (p : Nat × Nat) (scale : Nat) : Nat :=
  rheDivN (p.1 * 2 ^ scale) (10 ^ p.2)

/-! ## Resource limits (`run_process`, lines 262-280) -/

/-- The `(soft, hard)` pair passed to `setrlimit(ZZUF_RLIMIT_MEM, ·)`
when a memory cap is configured (lines 262-270). -/
def memLimit (opts : Opts) : Option (Int × Int) :=
  if opts.maxmem ≥ 0 then
    some (opts.maxmem * 1048576, opts.maxmem * 1048576)
  else none

/-- The `(soft, hard)` pair passed to `setrlimit(ZZUF_RLIMIT_CPU, ·)`
when a CPU-time cap is configured (lines 272-280). -/
def cpuLimit (opts : Opts) : Option (Int × Int) :=
  if opts.maxcpu ≥ 0 then some (opts.maxcpu, opts.maxcpu + 5) else none

/-! ## Library path resolution (`run_process`, lines 297-318)

`LT_OBJDIR` defaults to `".libs/"` in `myfork.c` itself (line 58).
`SONAME` and `LIBDIR` are build-time macros defined outside the
translated file; modelled from the spec: a fixed library name and a
fixed installation directory, both known at build time.  `EXTRAINFO` is
empty on the default (non-OSF1) platform branch (line 222). -/

def LT_OBJDIR : Str := str ".libs/"

/-- Modelled from the spec: the build-time library file name. -/
def SONAME : Str := str "libzzuf.so"

/-- Modelled from the spec: the build-time installation directory. -/
def LIBDIR : Str := str "/usr/lib"

def EXTRAINFO : Str := []

/-- The platform preload variable, default branch (line 223). -/
def PRELOAD_VAR : Str := str "LD_PRELOAD"

/-- `strrchr(s, '/')` followed by keeping everything up to and including
the last `'/'`: returns that prefix, or `none` when `s` has no `'/'`.
This is the portion of `libpath` that survives the
`strcpy(tmp + 1, LT_OBJDIR SONAME)` on line 310. -/
def upToLastSlash : Str → Option Str
  | [] => none
  | c :: rest =>
    match upToLastSlash rest with
    | some p => some (c :: p)
    | none => if c = '/' then some ['/'] else none

/-- The fixed installation-directory fallback `LIBDIR "/" SONAME`
(lines 312 and 315). -/
def installPath : Str := LIBDIR ++ '/' :: SONAME

/-- LibraryPathResolver (lines 299-315): with a `'/'` in the target,
probe the colocated `<dir>/<LT_OBJDIR><SONAME>` with `access(·, R_OK)`
and fall back to the installation path; without a `'/'`, use the
installation path unconditionally.  `access` is the readability oracle
of the filesystem. -/
def libraryPath (access : Str → Bool) (target : Str) : Str :=
  match upToLastSlash target with
  | some pfx =>
    let colocated := pfx ++ LT_OBJDIR ++ SONAME
    if access colocated then colocated else installPath
  | none => installPath

/-- "Do not clobber previous LD_PRELOAD values" (lines 320-328): a
non-empty existing value is kept and the resolved path appended after a
`':'`; otherwise the resolved path stands alone. -/
def preloadMerge (existing : Option Str) (libpath : Str) : Str :=
  match existing with
  | some t => if t = [] then libpath else t ++ ':' :: libpath
  | none => libpath

/-! ## Child environment population (`run_process`, lines 282-333) -/

/-- The environment writes the child performs before `execvp`
(lines 282-333).  `g` is the text of `sprintf("%g", ·)` for doubles,
kept as a parameter of the embedding; `debugfd` is `pipes[0][1]` after
the remap loop.  The four harness variables are set unconditionally;
`getenv(PRELOAD)` and the merge are computed unconditionally, and the
preload variable is written only in preload mode (lines 330-332). -/
def childEnv (g : D64 → Str) (access : Str → Bool) (opts : Opts)
    (debugfd : Int) (env : Env) : Env :=
  let env1 := setenvS env (str "ZZUF_DEBUGFD") (intText debugfd)
  let env2 := setenvS env1 (str "ZZUF_SEED") (intText opts.seed)
  let env3 := setenvS env2 (str "ZZUF_MINRATIO") (g opts.minratio)
  let env4 := setenvS env3 (str "ZZUF_MAXRATIO") (g opts.maxratio)
  let libpath := libraryPath access opts.oldargv0 ++ EXTRAINFO
  let merged := preloadMerge (getenvS env4 PRELOAD_VAR) libpath
  if opts.opmode = OpMode.preload then setenvS env4 PRELOAD_VAR merged
  else env4

/-! ## The child descriptor-remap loop (`run_process`, lines 244-259) -/

/-- What a descriptor number refers to: the read or write end of one of
the three numbered channels, or some other file object. -/
inductive FObj
  | pipeRead (j : Fin 3)
  | pipeWrite (j : Fin 3)
  | other (n : Nat)
deriving DecidableEq

/-- The child's descriptor table. -/
def FdTable := Nat → Option FObj

/-- `close(n)`. -/
def fdClose (t : FdTable) (n : Nat) : FdTable :=
  fun m => if m = n then none else t m

/-- `dup2(o, n)`: descriptor `n` now refers to what `o` refers to. -/
def fdDup2 (t : FdTable) (o n : Nat) : FdTable :=
  fun m => if m = n then t o else t m

/-- Modelled from the spec: `DEBUG_FILENO`, the fixed well-known debug
descriptor number, is defined outside the translated file; the claims
do not depend on its value. -/
def DEBUG_FILENO : Nat := 17

def STDERR_FILENO : Nat := 2

def STDOUT_FILENO : Nat := 1

/-- `static int const fds[] = { DEBUG_FILENO, STDERR_FILENO,
STDOUT_FILENO }` (line 249), indexed by channel number. -/
def fds (j : Fin 3) : Nat :=
  if j.1 = 0 then DEBUG_FILENO
  else if j.1 = 1 then STDERR_FILENO
  else STDOUT_FILENO

/-- One iteration of the child's remap loop (lines 250-258) for channel
`j`: close the read end, and if the write end is not already at its
well-known number, `dup2` it there and close the old number. -/
def remapStep (pipefd : Fin 3 → Nat × Nat) (t : FdTable) (j : Fin 3) :
    FdTable :=
  let t1 := fdClose t (pipefd j).1
  if (pipefd j).2 ≠ fds j then
    fdClose (fdDup2 t1 (pipefd j).2 (fds j)) (pipefd j).2
  else t1

/-- The loop header `for (int j = 3; j--; )` runs j = 2, 1, 0, so the
debug channel (index 0) is processed last. -/
def remapOrder : List (Fin 3) := [2, 1, 0]

/-- The whole remap loop (lines 250-259). -/
def childRemap (pipefd : Fin 3 → Nat × Nat) (t : FdTable) : FdTable :=
  remapOrder.foldl (remapStep pipefd) t

/-! ## `myfork` itself (lines 91-120): resource ledger

`myfork` creates the three pipes, calls `run_process`, and on success
keeps only the read ends.  The embedding tracks, per outcome, which
pipe ends the harness still holds (a pipe end is `(channel, isWrite)`)
and whether a child process exists. -/

/-- Per-launch outcomes of the fallible system calls `myfork` and the
fork-path `run_process` make: whether each `pipe()` succeeds and
whether `fork()` succeeds. -/
structure LaunchWorld where
  pipeOk : Fin 3 → Bool
  forkOk : Bool

/-- The two descriptors a successful `pipe()` leaves open in the
harness: read end and write end of channel `j`. -/
def pipeEnds (j : Fin 3) : List (Fin 3 × Bool) := [(j, false), (j, true)]

/-- What a launch attempt left behind in the harness process. -/
structure LaunchState where
  openEnds : List (Fin 3 × Bool)
  childExists : Bool
deriving DecidableEq

/-- `myfork` (lines 91-120) together with the parent branch of the
fork-path `run_process` (lines 227-242).  A failed `pipe()` returns -1
at once, leaving the pipes of earlier iterations open (lines 95-102); a
failed `fork()` makes `run_process` return -1 and `myfork` return -1
with all six pipe ends still open (lines 104-110, the
`/* FIXME: close pipes */` site).  On success the parent closes the
write ends and keeps the read ends (lines 236-239 and 113-117). -/
def myfork (w : LaunchWorld) : Int × LaunchState :=
  if ¬ w.pipeOk 0 then (-1, ⟨[], false⟩)
  else if ¬ w.pipeOk 1 then (-1, ⟨pipeEnds 0, false⟩)
  else if ¬ w.pipeOk 2 then (-1, ⟨pipeEnds 0 ++ pipeEnds 1, false⟩)
  else if ¬ w.forkOk then
    (-1, ⟨pipeEnds 0 ++ pipeEnds 1 ++ pipeEnds 2, false⟩)
  else (0, ⟨[(0, false), (1, false), (2, false)], true⟩)

/-! ## Remote memory and the injection payloads (`dll_inject`) -/

/-- Target-process memory, byte addressed. -/
def Mem := Nat → Nat

/-- `WriteProcessMemory`: overwrite `bs.length` bytes starting at `a`. -/
def writeBytes (m : Mem) (a : Nat) (bs : List Nat) : Mem :=
  fun x => if a ≤ x ∧ x < a + bs.length then bs.getD (x - a) 0 else m x

/-- `ReadProcessMemory`: read `len` bytes starting at `a`. -/
def readBytes (m : Mem) (a len : Nat) : List Nat :=
  (List.range len).map (fun i => m (a + i))

/-- Little-endian bytes of a `w`-byte machine word, as `memcpy` of a
word-sized C object lays them out. -/
def leBytes (w v : Nat) : List Nat :=
  (List.range w).map (fun i => v / 256 ^ i % 256)

/-- The two architecture variants of the payload (build-time choice). -/
inductive Arch
  | amd64
  | ix86
deriving DecidableEq

/-- `sizeof(DWORD_PTR)` / `sizeof(oep)` per architecture. -/
def wordSize : Arch → Nat
  | .amd64 => 8
  | .ix86 => 4

/-- The `ldr` payload template bytes (without the C literal's
terminating NUL): lines 424-438 for amd64, lines 449-461 for ix86.
The `'_'` (0x5F) placeholders are where the `LoadLibraryA` address is
spliced in. -/
def ldrBytes : Arch → List Nat
  | .amd64 =>
    [0x55,
     0x48, 0x89, 0xE5,
     0x48, 0x83, 0xEC, 0x20,
     0x48, 0x83, 0xE4, 0xF0,
     0x48, 0x8D, 0x0D, 0x14, 0x00, 0x00, 0x00,
     0x48, 0xB8, 0x5F, 0x5F, 0x5F, 0x5F, 0x5F, 0x5F, 0x5F, 0x5F,
     0xFF, 0xD0,
     0x48, 0x85, 0xC0,
     0x75, 0x01,
     0xCC,
     0xC9,
     0xC3]
  | .ix86 =>
    [0x60,
     0xEB, 0x0E,
     0xB8, 0x5F, 0x5F, 0x5F, 0x5F,
     0xFF, 0xD0,
     0x85, 0xC0,
     0x75, 0x01,
     0xCC,
     0x61,
     0xC3,
     0xE8, 0xED, 0xFF, 0xFF, 0xFF]

/-- `LoadLibraryAOffset`: where the loader-function address is written
inside the payload (0x15 on amd64, line 421; 0x04 on ix86, line 446). -/
def loadLibOffset : Arch → Nat
  | .amd64 => 0x15
  | .ix86 => 0x04

/-- The entry-point self-loop `"\xeb\xfe"` (`jmp $-1`, line 469). -/
def waitBytes : List Nat := [0xEB, 0xFE]

/-- Replace the bytes of `l` at positions `i ..< i + repl.length` by
`repl` (the `memcpy(pl + off, &rldlib, sizeof(rldlib))` of line 534). -/
def spliceAt (l : List Nat) (i : Nat) (repl : List Nat) : List Nat :=
  l.take i ++ repl ++ l.drop (i + repl.length)

/-- The forged payload (lines 531-535): the template, with the resolved
`LoadLibraryA` address spliced at the architecture's offset, followed
by the NUL-terminated library name. -/
def payload (arch : Arch) (rldlib : Nat) (lib : Str) : List Nat :=
  spliceAt (ldrBytes arch) (loadLibOffset arch)
      (leBytes (wordSize arch) rldlib)
    ++ lib.map Char.toNat ++ [0]

/-! ## `dll_inject` (lines 415-562) as an oracle-driven machine -/

/-- Outcome of the entry-point polling loop (lines 505-510), when it is
entered: the target reaches the entry point, or a `GetThreadContext`
inside the loop fails, or the target never reaches the entry point and
the loop spins forever. -/
inductive PollOut
  | reached
  | ctxFail
  | forever
deriving DecidableEq

/-- Success/failure of each fallible call `dll_inject` makes, in source
order.  `procOk`/`procAddr` stand for the `get_proc_address` result
(`procOk = false` is the NULL return of line 516), and
`allocOk`/`allocAddr` for the `VirtualAllocEx` result (line 519). -/
structure SyscallOutcomes where
  getContextOk : Bool
  readEntryOk : Bool
  writeWaitOk : Bool
  flushWaitOk : Bool
  resumeOk : Bool
  pollOut : PollOut
  suspendOk : Bool
  procOk : Bool
  procAddr : Nat
  allocOk : Bool
  allocAddr : Nat
  writeStackOk : Bool
  setContextOk : Bool
  mallocOk : Bool
  writePayloadOk : Bool
  writeRestoreOk : Bool
  flushPayloadOk : Bool
  flushRestoreOk : Bool

/-- The spec's injection state-machine states. -/
inductive IState
  | created
  | waitingForEntry
  | hijacked
  | restored
  | completed
deriving DecidableEq

/-- Result of one injection attempt: the C return value (`none` when
the polling loop never terminates, so `dll_inject` never returns), the
final target memory, and the spec states visited in order. -/
structure InjectOut where
  retcode : Option Int
  mem : Mem
  visited : List IState

/-- `dll_inject` (lines 466-556).  `mem0` is the target memory at entry;
`oep` is `ctxt.LoaderRegister`, the original entry point (line 494);
`sp` is the stack pointer of the context in hand after the polling loop;
`ip0` is the instruction pointer of the context read on line 490 (the
`while` condition on line 505 is tested before the first iteration).
Each `goto _return` with `res == -1` becomes an early `retcode = -1`
exit recording the memory written so far. -/
def dll_inject (arch : Arch) (o : SyscallOutcomes) (mem0 : Mem)
    (oep sp ip0 : Nat) (lib : Str) : InjectOut :=
  -- lines 490-496: GetThreadContext, then save the 2 bytes at the oep
  if ¬ o.getContextOk then ⟨some (-1), mem0, [IState.created]⟩
  else if ¬ o.readEntryOk then ⟨some (-1), mem0, [IState.created]⟩
  -- lines 497-498: write the self-loop "\xeb\xfe" over the oep
  else if ¬ o.writeWaitOk then ⟨some (-1), mem0, [IState.created]⟩
  -- lines 499-500: FlushInstructionCache
  else if ¬ o.flushWaitOk then
    ⟨some (-1), writeBytes mem0 oep waitBytes, [IState.created]⟩
  -- lines 501-502: ResumeThread; the target is now waiting for entry
  else if ¬ o.resumeOk then
    ⟨some (-1), writeBytes mem0 oep waitBytes, [IState.created]⟩
  -- lines 505-510: poll until the instruction pointer reaches the oep
  else if ip0 ≠ oep ∧ o.pollOut = PollOut.ctxFail then
    ⟨some (-1), writeBytes mem0 oep waitBytes,
     [IState.created, IState.waitingForEntry]⟩
  else if ip0 ≠ oep ∧ o.pollOut = PollOut.forever then
    ⟨none, writeBytes mem0 oep waitBytes,
     [IState.created, IState.waitingForEntry]⟩
  -- lines 512-513: SuspendThread; the thread is now hijacked
  else if ¬ o.suspendOk then
    ⟨some (-1), writeBytes mem0 oep waitBytes,
     [IState.created, IState.waitingForEntry]⟩
  -- lines 515-520: resolve LoadLibraryA, allocate the remote buffer
  else if ¬ o.procOk then
    ⟨some (-1), writeBytes mem0 oep waitBytes,
     [IState.created, IState.waitingForEntry, IState.hijacked]⟩
  else if ¬ o.allocOk then
    ⟨some (-1), writeBytes mem0 oep waitBytes,
     [IState.created, IState.waitingForEntry, IState.hijacked]⟩
  -- lines 522-525: push the oep as the return address
  else if ¬ o.writeStackOk then
    ⟨some (-1), writeBytes mem0 oep waitBytes,
     [IState.created, IState.waitingForEntry, IState.hijacked]⟩
  -- lines 526-531: SetThreadContext, malloc of the local payload
  else if ¬ o.setContextOk then
    ⟨some (-1),
     writeBytes (writeBytes mem0 oep waitBytes) (sp - wordSize arch)
       (leBytes (wordSize arch) oep),
     [IState.created, IState.waitingForEntry, IState.hijacked]⟩
  else if ¬ o.mallocOk then
    ⟨some (-1),
     writeBytes (writeBytes mem0 oep waitBytes) (sp - wordSize arch)
       (leBytes (wordSize arch) oep),
     [IState.created, IState.waitingForEntry, IState.hijacked]⟩
  -- lines 533-538: forge the payload and write it into the remote buffer
  else if ¬ o.writePayloadOk then
    ⟨some (-1),
     writeBytes (writeBytes mem0 oep waitBytes) (sp - wordSize arch)
       (leBytes (wordSize arch) oep),
     [IState.created, IState.waitingForEntry, IState.hijacked]⟩
  -- lines 540-542: restore the saved 2 bytes over the oep
  else if ¬ o.writeRestoreOk then
    ⟨some (-1),
     writeBytes
       (writeBytes (writeBytes mem0 oep waitBytes) (sp - wordSize arch)
         (leBytes (wordSize arch) oep))
       o.allocAddr (payload arch o.procAddr lib),
     [IState.created, IState.waitingForEntry, IState.hijacked]⟩
  -- lines 544-547: the two FlushInstructionCache calls
  else if ¬ o.flushPayloadOk then
    ⟨some (-1),
     writeBytes
       (writeBytes
         (writeBytes (writeBytes mem0 oep waitBytes) (sp - wordSize arch)
           (leBytes (wordSize arch) oep))
         o.allocAddr (payload arch o.procAddr lib))
       oep (readBytes mem0 oep 2),
     [IState.created, IState.waitingForEntry, IState.hijacked,
      IState.restored]⟩
  else if ¬ o.flushRestoreOk then
    ⟨some (-1),
     writeBytes
       (writeBytes
         (writeBytes (writeBytes mem0 oep waitBytes) (sp - wordSize arch)
           (leBytes (wordSize arch) oep))
         o.allocAddr (payload arch o.procAddr lib))
       oep (readBytes mem0 oep 2),
     [IState.created, IState.waitingForEntry, IState.hijacked,
      IState.restored]⟩
  -- line 549: res = 0
  else
    ⟨some 0,
     writeBytes
       (writeBytes
         (writeBytes (writeBytes mem0 oep waitBytes) (sp - wordSize arch)
           (leBytes (wordSize arch) oep))
         o.allocAddr (payload arch o.procAddr lib))
       oep (readBytes mem0 oep 2),
     [IState.created, IState.waitingForEntry, IState.hijacked,
      IState.restored, IState.completed]⟩

/-! ## The suspended-create path of `run_process` (lines 345-410) -/

/-- The observable process-control events of the suspended-create path:
creating the suspended target, forcibly terminating it
(`TerminateProcess`, lines 396 and 405), and the final
`ResumeThread` of the target's main thread (line 402). -/
inductive WEvent
  | createSuspended
  | terminated
  | finalResume
deriving DecidableEq

/-- Outcomes of the calls `run_process` itself makes on this path. -/
structure WinWorld where
  createOk : Bool
  finalResumeOk : Bool
  inj : SyscallOutcomes

/-- How the launch attempt ended: returned -1, returned the child
handle, or never returned (injection hangs in its polling loop). -/
inductive WinRet
  | err
  | okHandle
  | hang
deriving DecidableEq

structure WinRunOut where
  ret : WinRet
  events : List WEvent
deriving DecidableEq

/-- The suspended-create branch of `run_process` (lines 345-410):
create suspended; on creation failure return -1 before any child
exists; run `dll_inject`; on its failure terminate the target and
return -1 without the final resume (lines 392-398); otherwise resume
the main thread, terminating and failing if `ResumeThread` itself
fails (lines 402-407), else return the child handle. -/
def run_process_win (arch : Arch) (w : WinWorld) (mem0 : Mem)
    (oep sp ip0 : Nat) (lib : Str) : WinRunOut :=
  if ¬ w.createOk then ⟨WinRet.err, []⟩
  else
    let inj := dll_inject arch w.inj mem0 oep sp ip0 lib
    match inj.retcode with
    | none => ⟨WinRet.hang, [WEvent.createSuspended]⟩
    | some r =>
      if r < 0 then
        ⟨WinRet.err, [WEvent.createSuspended, WEvent.terminated]⟩
      else if w.finalResumeOk then
        ⟨WinRet.okHandle, [WEvent.createSuspended, WEvent.finalResume]⟩
      else
        ⟨WinRet.err,
         [WEvent.createSuspended, WEvent.finalResume, WEvent.terminated]⟩

/-! ## `get_proc_address` (lines 564-627)

One snapshot module carries its name, base address, export-directory
RVA (`0` = no export directory, line 589), and the three parallel
export tables.  The name comparison on line 605 reads
`strlen(func) + 1` bytes of the candidate name and `strcmp`s them,
which on well-formed NUL-terminated export names is exact string
equality.  Out-of-table reads of the ordinal/function arrays return
whatever bytes sit there; the model reads a default. -/

structure WinModule where
  modName : Str
  base : Nat
  exportAddr : Nat
  names : List Str
  ordinals : List Nat
  functions : List Nat

/-- `stricmp(a, b) == 0`: case-insensitive equality. -/
def stricmpEq (a b : Str) : Bool :=
  a.map Char.toLower == b.map Char.toLower

/-- Index of the first export name equal to `func` (loop of
lines 594-621). -/
def findNameIdx : List Str → Str → Option Nat
  | [], _ => none
  | n :: rest, f =>
    if n = f then some 0 else (findNameIdx rest f).map (· + 1)

/-- The inner scan for one module: find `func` in the name table, map
the hit through the ordinal table, and read the function RVA
(lines 594-621). -/
def moduleLookup (m : WinModule) (func : Str) : Option Nat :=
  match findNameIdx m.names func with
  | none => none
  | some i =>
    let j := m.ordinals.getD i 0
    some (m.base + m.functions.getD j 0)

/-- `get_proc_address` (lines 564-627): walk the snapshot module list;
skip every module whose name is not `"kernel32.dll"` up to case
(line 581) and every module without an export directory (line 589);
return the first hit, or NULL after the list is exhausted. -/
def get_proc_address (mods : List WinModule) (func : Str) : Option Nat :=
  match mods with
  | [] => none
  | m :: rest =>
    if stricmpEq (str "kernel32.dll") m.modName then
      if m.exportAddr = 0 then get_proc_address rest func
      else
        match moduleLookup m func with
        | some a => some a
        | none => get_proc_address rest func
    else get_proc_address rest func

/-! # Helper lemmas -/

theorem upToLastSlash_eq_none {s : Str} :
    upToLastSlash s = none ↔ '/' ∉ s := by
  induction s with
  | nil => simp [upToLastSlash]
  | cons c rest ih =>
    simp only [upToLastSlash, List.mem_cons, not_or]
    cases h : upToLastSlash rest with
    | some p =>
      have hr : '/' ∈ rest := by
        by_contra hn
        rw [ih.mpr hn] at h
        exact Option.noConfusion h
      simp [hr]
    | none =>
      have hr : '/' ∉ rest := ih.mp h
      by_cases hc : c = '/'
      · simp [hc]
      · simp [hc, hr, show ¬('/' = c) from fun hh => hc hh.symm]

theorem upToLastSlash_append (dir base : Str) (hb : '/' ∉ base) :
    upToLastSlash (dir ++ '/' :: base) = some (dir ++ ['/']) := by
  induction dir with
  | nil => simp [upToLastSlash, upToLastSlash_eq_none.2 hb]
  | cons c rest ih => simp [upToLastSlash, ih]

theorem getenvS_setenvS (env : Env) (k v k2 : Str) :
    getenvS (setenvS env k v) k2 = if k = k2 then some v else getenvS env k2 :=
  rfl

theorem natTextCore_append (fuel : Nat) :
    ∀ (n : Nat) (acc : Str),
      natTextCore fuel n acc = natTextCore fuel n [] ++ acc := by
  induction fuel with
  | zero => intro n acc; rfl
  | succ f ih =>
    intro n acc
    by_cases h : n < 10
    · simp [natTextCore, h]
    · simp only [natTextCore]
      rw [if_neg h, if_neg h, ih (n / 10) (Nat.digitChar (n % 10) :: acc),
        ih (n / 10) [Nat.digitChar (n % 10)], List.append_assoc]
      rfl

theorem natTextCore_fuel (n : Nat) : ∀ f1 f2 : Nat, n < f1 → n < f2 →
    natTextCore f1 n [] = natTextCore f2 n [] := by
  induction n using Nat.strong_induction_on with
  | _ n ih =>
    intro f1 f2 h1 h2
    obtain ⟨fa, rfl⟩ : ∃ fa, f1 = fa + 1 := ⟨f1 - 1, by omega⟩
    obtain ⟨fb, rfl⟩ : ∃ fb, f2 = fb + 1 := ⟨f2 - 1, by omega⟩
    by_cases h : n < 10
    · simp [natTextCore, h]
    · simp only [natTextCore]
      rw [if_neg h, if_neg h, natTextCore_append fa, natTextCore_append fb,
        ih (n / 10) (by omega) fa fb (by omega) (by omega)]

theorem natText_step (n : Nat) (h : 10 ≤ n) :
    natText n = natText (n / 10) ++ [Nat.digitChar (n % 10)] := by
  show natTextCore (n + 1) n [] = _
  simp only [natTextCore]
  rw [if_neg (by omega), natTextCore_append n,
    natTextCore_fuel (n / 10) n (n / 10 + 1) (by omega) (by omega)]
  rfl

theorem digitChar_val : ∀ k, k < 10 → (Nat.digitChar k).toNat - 48 = k := by
  decide

theorem digit_ne_minus : ∀ k, k < 10 → Nat.digitChar k ≠ '-' := by decide

/-- The `%i` text of a natural number is exact: parsing it back as a
decimal numeral recovers the number. -/
theorem natVal_natText (n : Nat) : natVal (natText n) = n := by
  induction n using Nat.strong_induction_on with
  | _ n ih =>
    by_cases h : n < 10
    · have he : natText n = [Nat.digitChar n] := by
        simp [natText, natTextCore, h]
      rw [he]
      show 0 * 10 + ((Nat.digitChar n).toNat - 48) = n
      rw [digitChar_val n h]
      omega
    · rw [natText_step n (by omega), natVal, List.foldl_append]
      have h1 : List.foldl (fun a c => a * 10 + (c.toNat - 48)) 0
          (natText (n / 10)) = n / 10 := ih (n / 10) (by omega)
      rw [h1]
      show n / 10 * 10 + ((Nat.digitChar (n % 10)).toNat - 48) = n
      rw [digitChar_val (n % 10) (by omega)]
      omega

theorem natTextCore_head (fuel : Nat) : ∀ (n : Nat) (acc : Str),
    n < fuel →
    ∃ k r, k < 10 ∧ natTextCore fuel n acc = Nat.digitChar k :: r := by
  induction fuel with
  | zero => intro n acc h; omega
  | succ f ih =>
    intro n acc h
    by_cases h10 : n < 10
    · exact ⟨n, acc, h10, by simp [natTextCore, h10]⟩
    · obtain ⟨k, r, hk, he⟩ :=
        ih (n / 10) (Nat.digitChar (n % 10) :: acc) (by omega)
      refine ⟨k, r, hk, ?_⟩
      simp only [natTextCore]
      rw [if_neg h10]
      exact he

/-- The `%i` text of a C `int` is exact: parsing it back (decimal, with
an optional leading minus) recovers the integer. -/
theorem intVal_intText (z : Int) : intVal (intText z) = z := by
  by_cases hz : z < 0
  · rw [intText, if_pos hz, intVal]
    rw [if_pos (by simp)]
    show -(natVal (natText z.natAbs) : Int) = z
    rw [natVal_natText]
    omega
  · rw [intText, if_neg hz]
    obtain ⟨k, r, hk, he⟩ := natTextCore_head (z.toNat + 1) z.toNat []
      (by omega)
    have he2 : natText z.toNat = Nat.digitChar k :: r := he
    rw [intVal, he2,
      if_neg (by
        simp only [List.head?]
        intro hcon
        exact digit_ne_minus k hk (Option.some.inj hcon))]
    show (natVal (Nat.digitChar k :: r) : Int) = z
    rw [← he2, natVal_natText]
    omega

theorem remapStep_apply_ne (pipefd : Fin 3 → Nat × Nat) (t : FdTable)
    (j : Fin 3) (a : Nat) (h1 : a ≠ (pipefd j).1) (h2 : a ≠ (pipefd j).2)
    (h3 : a ≠ fds j) : remapStep pipefd t j a = t a := by
  unfold remapStep fdClose fdDup2
  split <;> simp [h1, h2, h3]

theorem writeBytes_read2 (mold m : Mem) (a : Nat) :
    writeBytes m a (readBytes mold a 2) a = mold a ∧
    writeBytes m a (readBytes mold a 2) (a + 1) = mold (a + 1) := by
  have hr : readBytes mold a 2 = [mold (a + 0), mold (a + 1)] := rfl
  rw [hr]
  constructor
  · show (if a ≤ a ∧ a < a + 2 then
        [mold (a + 0), mold (a + 1)].getD (a - a) 0 else m a) = mold a
    rw [if_pos ⟨Nat.le_refl a, by omega⟩]
    simp [Nat.sub_self]
  · show (if a ≤ a + 1 ∧ a + 1 < a + 2 then
        [mold (a + 0), mold (a + 1)].getD (a + 1 - a) 0 else m (a + 1)) =
        mold (a + 1)
    rw [if_pos ⟨by omega, by omega⟩]
    have : a + 1 - a = 1 := by omega
    simp [this]

/-! # Claims -/

/-- C6: for every configured CPU-time cap of N seconds (N ≥ 0), the
limit applied in the child before the process image is replaced has
soft threshold exactly N and hard threshold exactly N + 5 seconds. -/
theorem cpuLimit_soft_hard (opts : Opts) (h : 0 ≤ opts.maxcpu) :
    cpuLimit opts = some (opts.maxcpu, opts.maxcpu + 5) := by
  simp [cpuLimit, h]

theorem cpuLimit_soft_hard_witness :
    (0 : Int) ≤ 7 ∧
    cpuLimit ⟨OpMode.copy, 0, ⟨0, 0⟩, ⟨0, 0⟩, -1, 7, []⟩ = some (7, 12) :=
  ⟨by decide,
   cpuLimit_soft_hard ⟨OpMode.copy, 0, ⟨0, 0⟩, ⟨0, 0⟩, -1, 7, []⟩ (by decide)⟩

/-- C4: preload-variable merge: a non-empty existing value X plus the
resolved path P yields the concatenation X, ':', P; an unset or empty
existing value yields exactly P. -/
theorem preloadMerge_spec :
    (∀ x p : Str, x ≠ [] → preloadMerge (some x) p = x ++ ':' :: p) ∧
    (∀ p : Str, preloadMerge none p = p ∧ preloadMerge (some []) p = p) := by
  refine ⟨fun x p hx => ?_, fun p => ⟨rfl, rfl⟩⟩
  simp [preloadMerge, hx]

theorem preloadMerge_spec_witness :
    str "X" ≠ [] ∧ preloadMerge (some (str "X")) (str "P") = str "X:P" :=
  ⟨by decide, preloadMerge_spec.1 (str "X") (str "P") (by decide)⟩

/-- C3: library path resolution: for a target with a directory
separator, the colocated `<dir>/<LT_OBJDIR><SONAME>` is returned when
readable and the fixed installation path otherwise; for a target
without a separator, the fixed installation path is returned for every
readability oracle (so independently of the working directory's
contents). -/
theorem libraryPath_resolution (access : Str → Bool) :
    (∀ dir base : Str, '/' ∉ base →
      libraryPath access (dir ++ '/' :: base) =
        if access (dir ++ '/' :: (LT_OBJDIR ++ SONAME)) = true
        then dir ++ '/' :: (LT_OBJDIR ++ SONAME)
        else installPath) ∧
    (∀ target : Str, '/' ∉ target →
      libraryPath access target = installPath) := by
  constructor
  · intro dir base hb
    have h := upToLastSlash_append dir base hb
    simp only [libraryPath, h, List.append_assoc, List.singleton_append,
      List.cons_append, List.nil_append]
  · intro t ht
    simp [libraryPath, upToLastSlash_eq_none.2 ht]

theorem libraryPath_resolution_witness :
    ('/' ∉ str "prog") ∧
    libraryPath (fun s => s = str "./dir/.libs/libzzuf.so")
        (str "./dir" ++ '/' :: str "prog") = str "./dir/.libs/libzzuf.so" ∧
    libraryPath (fun _ => false) (str "prog") = installPath := by
  refine ⟨by decide, ?_, ?_⟩
  · have h := (libraryPath_resolution
      (fun s => s = str "./dir/.libs/libzzuf.so")).1 (str "./dir")
      (str "prog") (by decide)
    rw [h]
    decide
  · exact (libraryPath_resolution (fun _ => false)).2 (str "prog") (by decide)

/-- C7: the child processes the three channels in descending index
order (output, then error, then debug), so the debug channel (index 0)
is remapped last and its well-known descriptor cannot be clobbered by a
later remap of another channel: whenever the debug write-end survives
until its own step (the descriptor-distinctness the OS guarantees for
simultaneously open descriptors), the final table maps the debug
number to the debug write-end. -/
theorem childRemap_debug_remap_last (pipefd : Fin 3 → Nat × Nat)
    (t : FdTable) (hw : t (pipefd 0).2 = some (FObj.pipeWrite 0))
    (h01 : (pipefd 0).2 ≠ (pipefd 0).1)
    (h11 : (pipefd 0).2 ≠ (pipefd 1).1) (h12 : (pipefd 0).2 ≠ (pipefd 1).2)
    (h21 : (pipefd 0).2 ≠ (pipefd 2).1) (h22 : (pipefd 0).2 ≠ (pipefd 2).2)
    (hf1 : (pipefd 0).2 ≠ fds 1) (hf2 : (pipefd 0).2 ≠ fds 2) :
    remapOrder = [2, 1, 0] ∧
    childRemap pipefd t (fds 0) = some (FObj.pipeWrite 0) := by
  refine ⟨rfl, ?_⟩
  have keep : remapStep pipefd (remapStep pipefd t 2) 1 (pipefd 0).2 =
      some (FObj.pipeWrite 0) := by
    rw [remapStep_apply_ne pipefd _ 1 _ h11 h12 hf1,
      remapStep_apply_ne pipefd _ 2 _ h21 h22 hf2]
    exact hw
  show remapStep pipefd (remapStep pipefd (remapStep pipefd t 2) 1) 0
      (fds 0) = some (FObj.pipeWrite 0)
  generalize ht2 : remapStep pipefd (remapStep pipefd t 2) 1 = t2 at keep
  by_cases hz : (pipefd 0).2 = fds 0
  · have : remapStep pipefd t2 0 (fds 0) = fdClose t2 (pipefd 0).1 (fds 0) := by
      simp [remapStep, hz]
    rw [this]
    unfold fdClose
    rw [if_neg (fun hh => h01 (hz.symm ▸ hh : (pipefd 0).2 = (pipefd 0).1)),
      ← hz]
    exact keep
  · have : remapStep pipefd t2 0 (fds 0) =
        fdClose (fdDup2 (fdClose t2 (pipefd 0).1) (pipefd 0).2 (fds 0))
          (pipefd 0).2 (fds 0) := by
      simp [remapStep, hz]
    rw [this]
    unfold fdClose fdDup2
    rw [if_neg (fun hh => hz hh.symm), if_pos rfl]
    show (if (pipefd 0).2 = (pipefd 0).1 then none else t2 (pipefd 0).2) =
      some (FObj.pipeWrite 0)
    rw [if_neg h01]
    exact keep

theorem childRemap_debug_remap_last_witness :
    childRemap (fun j => (3 + 2 * j.1, 4 + 2 * j.1))
      (fun n =>
        if n = 3 then some (FObj.pipeRead 0)
        else if n = 4 then some (FObj.pipeWrite 0)
        else if n = 5 then some (FObj.pipeRead 1)
        else if n = 6 then some (FObj.pipeWrite 1)
        else if n = 7 then some (FObj.pipeRead 2)
        else if n = 8 then some (FObj.pipeWrite 2)
        else none) (fds 0) = some (FObj.pipeWrite 0) :=
  (childRemap_debug_remap_last (fun j => (3 + 2 * j.1, 4 + 2 * j.1)) _
    (by decide) (by decide) (by decide) (by decide) (by decide) (by decide)
    (by decide) (by decide)).2

/-- C1 counterexample: the claim says that with any mode other than
Preload none of the harness configuration variables is set in the
child; but at the concrete non-Preload launch below, `ZZUF_SEED` is set
(the four configuration variables are written unconditionally on
lines 282-295; only the preload variable is conditional). -/
theorem childEnv_nonpreload_sets_seed :
    getenvS
      (childEnv (fun _ => str "0.1") (fun _ => false)
        ⟨OpMode.copy, 42, ⟨1, 2⟩, ⟨3, 2⟩, -1, -1, str "prog"⟩ 17 [])
      (str "ZZUF_SEED") = some (str "42") := by decide

theorem childEnv_lookup (g : D64 → Str) (access : Str → Bool)
    (opts : Opts) (debugfd : Int) (env : Env) :
    getenvS (childEnv g access opts debugfd env) (str "ZZUF_DEBUGFD") =
      some (intText debugfd) ∧
    getenvS (childEnv g access opts debugfd env) (str "ZZUF_SEED") =
      some (intText opts.seed) ∧
    getenvS (childEnv g access opts debugfd env) (str "ZZUF_MINRATIO") =
      some (g opts.minratio) ∧
    getenvS (childEnv g access opts debugfd env) (str "ZZUF_MAXRATIO") =
      some (g opts.maxratio) ∧
    (opts.opmode ≠ OpMode.preload →
      getenvS (childEnv g access opts debugfd env) PRELOAD_VAR =
        getenvS env PRELOAD_VAR) ∧
    (opts.opmode = OpMode.preload →
      getenvS (childEnv g access opts debugfd env) PRELOAD_VAR =
        some (preloadMerge (getenvS env PRELOAD_VAR)
          (libraryPath access opts.oldargv0 ++ EXTRAINFO))) := by
  have n1 : (str "ZZUF_MAXRATIO" : Str) ≠ str "ZZUF_DEBUGFD" := by decide
  have n2 : (str "ZZUF_MINRATIO" : Str) ≠ str "ZZUF_DEBUGFD" := by decide
  have n3 : (str "ZZUF_SEED" : Str) ≠ str "ZZUF_DEBUGFD" := by decide
  have n4 : (str "ZZUF_MAXRATIO" : Str) ≠ str "ZZUF_SEED" := by decide
  have n5 : (str "ZZUF_MINRATIO" : Str) ≠ str "ZZUF_SEED" := by decide
  have n6 : (str "ZZUF_MAXRATIO" : Str) ≠ str "ZZUF_MINRATIO" := by decide
  have p1 : (PRELOAD_VAR : Str) ≠ str "ZZUF_DEBUGFD" := by decide
  have p2 : (PRELOAD_VAR : Str) ≠ str "ZZUF_SEED" := by decide
  have p3 : (PRELOAD_VAR : Str) ≠ str "ZZUF_MINRATIO" := by decide
  have p4 : (PRELOAD_VAR : Str) ≠ str "ZZUF_MAXRATIO" := by decide
  have q1 : (str "ZZUF_MAXRATIO" : Str) ≠ PRELOAD_VAR := by decide
  have q2 : (str "ZZUF_MINRATIO" : Str) ≠ PRELOAD_VAR := by decide
  have q3 : (str "ZZUF_SEED" : Str) ≠ PRELOAD_VAR := by decide
  have q4 : (str "ZZUF_DEBUGFD" : Str) ≠ PRELOAD_VAR := by decide
  by_cases hm : opts.opmode = OpMode.preload <;>
    simp [childEnv, setenvS, getenvS, hm, n1, n2, n3, n4, n5, n6,
      p1, p2, p3, p4, q1, q2, q3, q4]

/-- C1 (amended): on the fork-based path the child's environment always
receives the four harness configuration variables (debug-channel
handle, seed, minimum and maximum ratio), for every mode; only the
preload variable is conditional: it is written exactly when
`config.mode == Preload`, and is left untouched otherwise. -/
theorem childEnv_population (g : D64 → Str) (access : Str → Bool)
    (opts : Opts) (debugfd : Int) (env : Env) :
    getenvS (childEnv g access opts debugfd env) (str "ZZUF_DEBUGFD") =
      some (intText debugfd) ∧
    getenvS (childEnv g access opts debugfd env) (str "ZZUF_SEED") =
      some (intText opts.seed) ∧
    getenvS (childEnv g access opts debugfd env) (str "ZZUF_MINRATIO") =
      some (g opts.minratio) ∧
    getenvS (childEnv g access opts debugfd env) (str "ZZUF_MAXRATIO") =
      some (g opts.maxratio) ∧
    (opts.opmode ≠ OpMode.preload →
      getenvS (childEnv g access opts debugfd env) PRELOAD_VAR =
        getenvS env PRELOAD_VAR) ∧
    (opts.opmode = OpMode.preload →
      getenvS (childEnv g access opts debugfd env) PRELOAD_VAR =
        some (preloadMerge (getenvS env PRELOAD_VAR)
          (libraryPath access opts.oldargv0 ++ EXTRAINFO))) :=
  childEnv_lookup g access opts debugfd env

theorem childEnv_population_witness :
    (OpMode.copy ≠ OpMode.preload ∧
      getenvS
        (childEnv (fun _ => str "0.1") (fun _ => false)
          ⟨OpMode.copy, 42, ⟨1, 2⟩, ⟨3, 2⟩, -1, -1, str "prog"⟩ 17 [])
        PRELOAD_VAR = getenvS [] PRELOAD_VAR) ∧
    (OpMode.preload = OpMode.preload ∧
      getenvS
        (childEnv (fun _ => str "0.1") (fun _ => false)
          ⟨OpMode.preload, 42, ⟨1, 2⟩, ⟨3, 2⟩, -1, -1, str "prog"⟩ 17 [])
        PRELOAD_VAR =
        some (preloadMerge (getenvS [] PRELOAD_VAR)
          (libraryPath (fun _ => false) (str "prog") ++ EXTRAINFO))) :=
  ⟨⟨by decide,
    (childEnv_population (fun _ => str "0.1") (fun _ => false)
      ⟨OpMode.copy, 42, ⟨1, 2⟩, ⟨3, 2⟩, -1, -1, str "prog"⟩ 17
      []).2.2.2.2.1 (by decide)⟩,
   ⟨rfl,
    (childEnv_population (fun _ => str "0.1") (fun _ => false)
      ⟨OpMode.preload, 42, ⟨1, 2⟩, ⟨3, 2⟩, -1, -1, str "prog"⟩ 17
      []).2.2.2.2.2 rfl⟩⟩

/-- C8 counterexample: the ratio text the child stores is not shortest
round-trip floating-point text.  Take `minratio` to be the binary64
value `5404319552844596 * 2⁻⁵⁴` (the double `0.1 + 0.2` produces).  It
lies in the binade `[1/4, 1/2)`, whose representable values are spaced
`2⁻⁵⁴` (first conjunct).  The child writes the `%g` text `"0.3"` for it
(second conjunct, evaluating the embedded `sprintf("%g", ·)` of
line 293).  But `"0.3"` parses back — nearest representable, ties to
even — to the neighbouring double `5404319552844595 * 2⁻⁵⁴` (third
conjunct), so the stored text does not round-trip to the configured
ratio, and in particular is not "the default shortest round-trip
floating-point text" of it, refuting the claim at this launch. -/
theorem ratio_text_not_roundtrip :
    (2 ^ 52 ≤ 5404319552844596 ∧ 5404319552844596 < 2 ^ 53) ∧
    getenvS
      (childEnv fmtG (fun _ => false)
        ⟨OpMode.copy, 42, ⟨5404319552844596, 54⟩, ⟨5404319552844596, 54⟩,
         -1, -1, str "prog"⟩ 17 [])
      (str "ZZUF_MINRATIO") = some (str "0.3") ∧
    nearestScaled (parseDec (str "0.3")) 54 ≠ 5404319552844596 := by
  decide

/-- C8 (amended): for every launch, `ZZUF_SEED` holds the exact decimal
text of the configured integer seed (exact in that decimal parsing
recovers the seed), and `ZZUF_MINRATIO` / `ZZUF_MAXRATIO` hold the
C `%g` default-precision text (6 significant digits) of the configured
ratios — which is not round-trip text in general. -/
theorem childEnv_text_formats (access : Str → Bool) (opts : Opts)
    (debugfd : Int) (env : Env) :
    getenvS (childEnv fmtG access opts debugfd env) (str "ZZUF_SEED") =
      some (intText opts.seed) ∧
    intVal (intText opts.seed) = opts.seed ∧
    getenvS (childEnv fmtG access opts debugfd env) (str "ZZUF_MINRATIO") =
      some (fmtG opts.minratio) ∧
    getenvS (childEnv fmtG access opts debugfd env) (str "ZZUF_MAXRATIO") =
      some (fmtG opts.maxratio) :=
  ⟨(childEnv_lookup fmtG access opts debugfd env).2.1,
   intVal_intText opts.seed,
   (childEnv_lookup fmtG access opts debugfd env).2.2.1,
   (childEnv_lookup fmtG access opts debugfd env).2.2.2.1⟩

/-- C9: at the concrete launch in which all three pipes are created and
`fork` then fails, `myfork` returns -1 synchronously and no child
exists — but all six pipe descriptors created during the attempt remain
open in the harness (the `/* FIXME: close pipes */` site, line 107),
contradicting the claim's "no OS resources created during the attempt
remain held". -/
theorem myfork_fork_failure_leak :
    myfork ⟨fun _ => true, false⟩ =
      (-1, ⟨pipeEnds 0 ++ pipeEnds 1 ++ pipeEnds 2, false⟩) ∧
    (pipeEnds 0 ++ pipeEnds 1 ++ pipeEnds 2).length = 6 := by decide

/-- C10: the export resolver consults only modules whose name equals
"kernel32.dll" case-insensitively — the result is unchanged when every
other module is removed from the snapshot — and it returns NULL
whenever no kernel32.dll module (with an export directory) exports the
requested name. -/
theorem get_proc_address_kernel32_only :
    (∀ (mods : List WinModule) (func : Str),
      get_proc_address mods func =
        get_proc_address
          (mods.filter fun m => stricmpEq (str "kernel32.dll") m.modName)
          func) ∧
    (∀ (mods : List WinModule) (func : Str),
      (∀ m ∈ mods, stricmpEq (str "kernel32.dll") m.modName = true →
        m.exportAddr = 0 ∨ findNameIdx m.names func = none) →
      get_proc_address mods func = none) := by
  constructor
  · intro mods func
    induction mods with
    | nil => rfl
    | cons m rest ih =>
      by_cases hk : stricmpEq (str "kernel32.dll") m.modName
      · by_cases he : m.exportAddr = 0
        · simp [get_proc_address, hk, he, List.filter_cons, ih]
        · cases hl : moduleLookup m func with
          | some a => simp [get_proc_address, hk, he, hl, List.filter_cons]
          | none => simp [get_proc_address, hk, he, hl, List.filter_cons, ih]
      · simp [get_proc_address, hk, List.filter_cons, ih]
  · intro mods func hall
    induction mods with
    | nil => rfl
    | cons m rest ih =>
      have hrest := ih fun m2 hm2 => hall m2 (List.mem_cons_of_mem _ hm2)
      by_cases hk : stricmpEq (str "kernel32.dll") m.modName
      · rcases hall m (List.mem_cons_self _ _) hk with he | hn
        · simp [get_proc_address, hk, he, hrest]
        · by_cases he : m.exportAddr = 0
          · simp [get_proc_address, hk, he, hrest]
          · have hl : moduleLookup m func = none := by
              simp [moduleLookup, hn]
            simp [get_proc_address, hk, he, hl, hrest]
      · simp [get_proc_address, hk, hrest]

theorem get_proc_address_kernel32_only_witness :
    get_proc_address
      [⟨str "evil.dll", 900, 5, [str "LoadLibraryA"], [0], [1]⟩,
       ⟨str "KERNEL32.DLL", 100, 0, [str "LoadLibraryA"], [0], [40]⟩]
      (str "LoadLibraryA") = none :=
  get_proc_address_kernel32_only.2
    [⟨str "evil.dll", 900, 5, [str "LoadLibraryA"], [0], [1]⟩,
     ⟨str "KERNEL32.DLL", 100, 0, [str "LoadLibraryA"], [0], [40]⟩]
    (str "LoadLibraryA") (by decide)

set_option maxHeartbeats 2000000 in
theorem dll_inject_main (arch : Arch) (o : SyscallOutcomes) (mem0 : Mem)
    (oep sp ip0 : Nat) (lib : Str) (out : InjectOut)
    (hout : dll_inject arch o mem0 oep sp ip0 lib = out) :
    (out.retcode = some (-1) ∨ out.retcode = some 0 ∨
      out.retcode = none) ∧
    (IState.restored ∈ out.visited →
      out.mem oep = mem0 oep ∧ out.mem (oep + 1) = mem0 (oep + 1)) := by
  unfold dll_inject at hout
  generalize hm1 : writeBytes mem0 oep waitBytes = m1 at hout
  generalize hm2 :
    writeBytes m1 (sp - wordSize arch) (leBytes (wordSize arch) oep) = m2
    at hout
  generalize hm3 :
    writeBytes m2 o.allocAddr (payload arch o.procAddr lib) = m3 at hout
  generalize hm4 : writeBytes m3 oep (readBytes mem0 oep 2) = m4 at hout
  by_cases b1 : o.getContextOk
  case neg =>
    rw [if_pos b1] at hout
    cases hout
    exact ⟨Or.inl rfl, fun hmem => absurd hmem (by simp)⟩
  rw [if_neg (not_not_intro b1)] at hout
  by_cases b2 : o.readEntryOk
  case neg =>
    rw [if_pos b2] at hout
    cases hout
    exact ⟨Or.inl rfl, fun hmem => absurd hmem (by simp)⟩
  rw [if_neg (not_not_intro b2)] at hout
  by_cases b3 : o.writeWaitOk
  case neg =>
    rw [if_pos b3] at hout
    cases hout
    exact ⟨Or.inl rfl, fun hmem => absurd hmem (by simp)⟩
  rw [if_neg (not_not_intro b3)] at hout
  by_cases b4 : o.flushWaitOk
  case neg =>
    rw [if_pos b4] at hout
    cases hout
    exact ⟨Or.inl rfl, fun hmem => absurd hmem (by simp)⟩
  rw [if_neg (not_not_intro b4)] at hout
  by_cases b5 : o.resumeOk
  case neg =>
    rw [if_pos b5] at hout
    cases hout
    exact ⟨Or.inl rfl, fun hmem => absurd hmem (by simp)⟩
  rw [if_neg (not_not_intro b5)] at hout
  by_cases b6 : ip0 ≠ oep ∧ o.pollOut = PollOut.ctxFail
  case pos =>
    rw [if_pos b6] at hout
    cases hout
    exact ⟨Or.inl rfl, fun hmem => absurd hmem (by simp)⟩
  rw [if_neg b6] at hout
  by_cases b7 : ip0 ≠ oep ∧ o.pollOut = PollOut.forever
  case pos =>
    rw [if_pos b7] at hout
    cases hout
    exact ⟨Or.inr (Or.inr rfl), fun hmem => absurd hmem (by simp)⟩
  rw [if_neg b7] at hout
  by_cases b8 : o.suspendOk
  case neg =>
    rw [if_pos b8] at hout
    cases hout
    exact ⟨Or.inl rfl, fun hmem => absurd hmem (by simp)⟩
  rw [if_neg (not_not_intro b8)] at hout
  by_cases b9 : o.procOk
  case neg =>
    rw [if_pos b9] at hout
    cases hout
    exact ⟨Or.inl rfl, fun hmem => absurd hmem (by simp)⟩
  rw [if_neg (not_not_intro b9)] at hout
  by_cases b10 : o.allocOk
  case neg =>
    rw [if_pos b10] at hout
    cases hout
    exact ⟨Or.inl rfl, fun hmem => absurd hmem (by simp)⟩
  rw [if_neg (not_not_intro b10)] at hout
  by_cases b11 : o.writeStackOk
  case neg =>
    rw [if_pos b11] at hout
    cases hout
    exact ⟨Or.inl rfl, fun hmem => absurd hmem (by simp)⟩
  rw [if_neg (not_not_intro b11)] at hout
  by_cases b12 : o.setContextOk
  case neg =>
    rw [if_pos b12] at hout
    cases hout
    exact ⟨Or.inl rfl, fun hmem => absurd hmem (by simp)⟩
  rw [if_neg (not_not_intro b12)] at hout
  by_cases b13 : o.mallocOk
  case neg =>
    rw [if_pos b13] at hout
    cases hout
    exact ⟨Or.inl rfl, fun hmem => absurd hmem (by simp)⟩
  rw [if_neg (not_not_intro b13)] at hout
  by_cases b14 : o.writePayloadOk
  case neg =>
    rw [if_pos b14] at hout
    cases hout
    exact ⟨Or.inl rfl, fun hmem => absurd hmem (by simp)⟩
  rw [if_neg (not_not_intro b14)] at hout
  by_cases b15 : o.writeRestoreOk
  case neg =>
    rw [if_pos b15] at hout
    cases hout
    exact ⟨Or.inl rfl, fun hmem => absurd hmem (by simp)⟩
  rw [if_neg (not_not_intro b15)] at hout
  by_cases b16 : o.flushPayloadOk
  case neg =>
    rw [if_pos b16] at hout
    cases hout
    exact ⟨Or.inl rfl, fun _ => hm4 ▸ writeBytes_read2 mem0 m3 oep⟩
  rw [if_neg (not_not_intro b16)] at hout
  by_cases b17 : o.flushRestoreOk
  case neg =>
    rw [if_pos b17] at hout
    cases hout
    exact ⟨Or.inl rfl, fun _ => hm4 ▸ writeBytes_read2 mem0 m3 oep⟩
  rw [if_neg (not_not_intro b17)] at hout
  cases hout
  exact ⟨Or.inr (Or.inl rfl), fun _ => hm4 ▸ writeBytes_read2 mem0 m3 oep⟩

theorem dll_inject_retcode_cases (arch : Arch) (o : SyscallOutcomes)
    (mem0 : Mem) (oep sp ip0 : Nat) (lib : Str) :
    (dll_inject arch o mem0 oep sp ip0 lib).retcode = some (-1) ∨
    (dll_inject arch o mem0 oep sp ip0 lib).retcode = some 0 ∨
    (dll_inject arch o mem0 oep sp ip0 lib).retcode = none :=
  (dll_inject_main arch o mem0 oep sp ip0 lib _ rfl).1

/-- C2: every injection attempt that reaches the Restored state has
written back over the entry-point address the same 2 bytes it read
from there before the self-loop patch, on both architecture variants:
the final target memory agrees with the initial target memory at `oep`
and `oep + 1`. -/
theorem dll_inject_restore_roundtrip (arch : Arch) (o : SyscallOutcomes)
    (mem0 : Mem) (oep sp ip0 : Nat) (lib : Str)
    (h : IState.restored ∈ (dll_inject arch o mem0 oep sp ip0 lib).visited) :
    (dll_inject arch o mem0 oep sp ip0 lib).mem oep = mem0 oep ∧
    (dll_inject arch o mem0 oep sp ip0 lib).mem (oep + 1) = mem0 (oep + 1) :=
  (dll_inject_main arch o mem0 oep sp ip0 lib _ rfl).2 h

theorem dll_inject_restore_roundtrip_witness :
    (IState.restored ∈
      (dll_inject Arch.amd64
        ⟨true, true, true, true, true, PollOut.reached, true, true, 1000,
          true, 5000, true, true, true, true, true, true, true⟩
        (fun a => a % 251) 64 4096 7 (str "libzzuf.dll")).visited) ∧
    (dll_inject Arch.amd64
        ⟨true, true, true, true, true, PollOut.reached, true, true, 1000,
          true, 5000, true, true, true, true, true, true, true⟩
        (fun a => a % 251) 64 4096 7 (str "libzzuf.dll")).mem 64 =
      (fun a => a % 251 : Mem) 64 :=
  ⟨by decide,
   (dll_inject_restore_roundtrip Arch.amd64
     ⟨true, true, true, true, true, PollOut.reached, true, true, 1000,
       true, 5000, true, true, true, true, true, true, true⟩
     (fun a => a % 251) 64 4096 7 (str "libzzuf.dll") (by decide)).1⟩

/-- C5: on the suspended-create path, whenever injection fails the
launcher forcibly terminates the half-started target, returns the
failure, and never performs the final resume of the target's main
thread; and the final resume happens only when `dll_inject` returned
success. -/
theorem run_process_win_resume_policy (arch : Arch) (w : WinWorld)
    (mem0 : Mem) (oep sp ip0 : Nat) (lib : Str) :
    (∀ r : Int,
      (dll_inject arch w.inj mem0 oep sp ip0 lib).retcode = some r →
      r < 0 → w.createOk = true →
      (run_process_win arch w mem0 oep sp ip0 lib).ret = WinRet.err ∧
      WEvent.terminated ∈ (run_process_win arch w mem0 oep sp ip0 lib).events ∧
      WEvent.finalResume ∉
        (run_process_win arch w mem0 oep sp ip0 lib).events) ∧
    (WEvent.finalResume ∈ (run_process_win arch w mem0 oep sp ip0 lib).events →
      (dll_inject arch w.inj mem0 oep sp ip0 lib).retcode = some 0) := by
  constructor
  · intro r hr hneg hc
    rw [show r = -1 by
      rcases dll_inject_retcode_cases arch w.inj mem0 oep sp ip0 lib with
        h1 | h1 | h1 <;> rw [h1] at hr <;> first
        | exact (Option.some.inj hr).symm
        | (have h0 := Option.some.inj hr; omega)
        | exact Option.noConfusion hr] at hr
    simp [run_process_win, hc, hr]
  · intro hres
    by_cases hc : w.createOk
    · rcases dll_inject_retcode_cases arch w.inj mem0 oep sp ip0 lib with
        h1 | h1 | h1
      · simp [run_process_win, hc, h1] at hres
      · exact h1
      · simp [run_process_win, hc, h1] at hres
    · simp [run_process_win, hc] at hres

theorem run_process_win_resume_policy_witness :
    ((run_process_win Arch.amd64
        ⟨true, true,
          ⟨true, true, true, true, true, PollOut.reached, true, false, 0,
            true, 5000, true, true, true, true, true, true, true⟩⟩
        (fun a => a % 251) 64 4096 7 (str "l")).ret = WinRet.err ∧
      WEvent.terminated ∈
        (run_process_win Arch.amd64
          ⟨true, true,
            ⟨true, true, true, true, true, PollOut.reached, true, false, 0,
              true, 5000, true, true, true, true, true, true, true⟩⟩
          (fun a => a % 251) 64 4096 7 (str "l")).events ∧
      WEvent.finalResume ∉
        (run_process_win Arch.amd64
          ⟨true, true,
            ⟨true, true, true, true, true, PollOut.reached, true, false, 0,
              true, 5000, true, true, true, true, true, true, true⟩⟩
          (fun a => a % 251) 64 4096 7 (str "l")).events) ∧
    (dll_inject Arch.amd64
      ⟨true, true, true, true, true, PollOut.reached, true, true, 1000,
        true, 5000, true, true, true, true, true, true, true⟩
      (fun a => a % 251) 64 4096 7 (str "l")).retcode = some 0 :=
  ⟨(run_process_win_resume_policy Arch.amd64
      ⟨true, true,
        ⟨true, true, true, true, true, PollOut.reached, true, false, 0,
          true, 5000, true, true, true, true, true, true, true⟩⟩
      (fun a => a % 251) 64 4096 7 (str "l")).1 (-1) (by decide) (by decide)
      rfl,
   (run_process_win_resume_policy Arch.amd64
      ⟨true, true,
        ⟨true, true, true, true, true, PollOut.reached, true, true, 1000,
          true, 5000, true, true, true, true, true, true, true⟩⟩
      (fun a => a % 251) 64 4096 7 (str "l")).2 (by decide)⟩

end Zzuf
